import Mathlib

/-
Verification of the backtester statistics store / results aggregator
(src/backtester/eventhandlers/statistics/statistics.go) and of the
portfolio sizing engine (package size; its implementation is not in the
source tree, only its tests, so it is modelled from the specification).

Shallow embedding conventions:
  * shopspring decimal values are embedded as exact rationals (ℚ);
  * int64 counters and offsets are embedded as ℤ;
  * time.Time is embedded as ℤ (nanoseconds since epoch); time.Time.Equal
    becomes equality on ℤ;
  * Go maps keyed by exchange/asset/pair become association lists, whose
    (deterministic) order stands in for one possible Go map iteration order;
  * methods mutating a receiver become functions returning the updated
    value together with an optional error (`Option StatError × Statistic`),
    mirroring the receiver state left behind by an early return;
  * external collaborator packages (holdings, compliance, funding,
    currencystatistics' calculator) are abstracted: their payloads are
    opaque integers and their operations are parameters.
-/

set_option autoImplicit false

namespace GCT

/-- Wall clock instants (time.Time), as nanoseconds since the epoch. -/
abbrev Time := Int

/-- asset.Item is a string-backed type in gocryptotrader. -/
abbrev AssetItem := String

/-- currency.Pair reduced to its base and quote codes; Pair.Equal is equality. -/
structure CurrencyPair where
  Base : String := ""
  Quote : String := ""
deriving DecidableEq, Repr

/-- Common identification data carried by every backtester event
(event.Base): exchange, asset type, pair, time and offset. -/
structure EventMeta where
  Exchange : String := ""
  AssetType : AssetItem := ""
  CurrencyPair : CurrencyPair := {}
  Time : Time := 0
  Offset : Int := 0
deriving DecidableEq, Repr

/-- common.DataEventHandler (a market-data event); only the identification
data is relevant to the verified operations. -/
structure DataEvent where
  meta : EventMeta := {}
deriving DecidableEq, Repr

/-- signal.Event. -/
structure SignalEvent where
  meta : EventMeta := {}
deriving DecidableEq, Repr

/-- order.Event (the statistics store's view of one). -/
structure OrderEvent where
  meta : EventMeta := {}
deriving DecidableEq, Repr

/-- fill.Event. -/
structure FillEvent where
  meta : EventMeta := {}
deriving DecidableEq, Repr

/-- common.EventHandler: the dynamic event value handed to
SetEventForOffset.  The Go code inspects it with a type switch over
DataEventHandler / signal.Event / order.Event / fill.Event with a default
branch; `otherEv` stands for any value of none of those four types. -/
inductive AnyEvent where
  | dataEv (d : DataEvent)
  | signalEv (e : SignalEvent)
  | orderEv (e : OrderEvent)
  | fillEv (e : FillEvent)
  | otherEv (meta : EventMeta)
deriving DecidableEq, Repr

/-- GetExchange/GetAssetType/Pair/GetTime/GetOffset of an event value. -/
def AnyEvent.meta : AnyEvent → EventMeta
  | .dataEv d => d.meta
  | .signalEv e => e.meta
  | .orderEv e => e.meta
  | .fillEv e => e.meta
  | .otherEv m => m

/-- Opaque stand-in for the external holdings.Holding snapshot. -/
abbrev Holding := Int

/-- Opaque stand-in for the external compliance.Snapshot. -/
abbrev Snapshot := Int

/-- Opaque stand-in for the funding.IPairReader view returned by
GetFundingForEvent. -/
abbrev FundingView := Int

/-- Opaque stand-in for a funding report; it is whatever GenerateReport
returns, so a pair of values is enough to observe the arguments used. -/
abbrev FundingReport := Time × Time

/-- currencystatistics.EventStore: one record per (tuple, offset).  The
market-data event is always present once the record is created; the other
events and snapshots are optional enrichments. -/
structure EventStore where
  DataEvent : DataEvent
  SignalEvent : Option SignalEvent := none
  OrderEvent : Option OrderEvent := none
  FillEvent : Option FillEvent := none
  Holdings : Holding := 0
  Transactions : Snapshot := 0
deriving DecidableEq, Repr

/-- Stand-in for currencystatistics.Swing (max drawdown); only the
DrawdownPercent field is read by this package. -/
structure Swing where
  DrawdownPercent : ℚ := 0
deriving DecidableEq, Repr

/-- currencystatistics.CurrencyStatistic: the per-tuple Timeline plus the
aggregated output fields this package reads or writes. -/
structure CurrencyStatistic where
  Events : List EventStore := []
  MaxDrawdown : Swing := {}
  MarketMovement : ℚ := 0
  StrategyMovement : ℚ := 0
  BuyOrders : Int := 0
  SellOrders : Int := 0
  ShowMissingDataWarning : Bool := false
  FinalHoldings : Holding := 0
  InitialHoldings : Holding := 0
  FinalOrders : Snapshot := 0
deriving DecidableEq, Repr

/-- FinalResultsHolder: terminal summary of one tuple. -/
structure FinalResultsHolder where
  Exchange : String := ""
  Asset : AssetItem := ""
  Pair : CurrencyPair := {}
  MaxDrawdown : Swing := {}
  MarketMovement : ℚ := 0
  StrategyMovement : ℚ := 0
deriving DecidableEq, Repr

/-- Key of the nested exchange → asset → pair map. -/
abbrev TupleKey := String × AssetItem × CurrencyPair

/-- The error values surfaced by the statistics package.  `fundingErr` and
`calcErr` wrap the opaque errors of the external funding source and
per-tuple calculator; `indexOutOfRange` models the Go runtime panic from
indexing an empty Events slice. -/
inductive StatError where
  | nilEvent
  | alreadyProcessed
  | statisticsUnset
  | currencyStatisticsUnset
  | unknownEventType
  | indexOutOfRange
  | fundingErr (code : Int)
deriving DecidableEq, Repr

/-- The Statistic aggregator.  ExchangeAssetPairStatistics is `none` when
the Go nested map is nil; the three nesting levels are flattened into one
association list keyed by (exchange, asset, pair). -/
structure Statistic where
  ExchangeAssetPairStatistics : Option (List (TupleKey × CurrencyStatistic)) := none
  AllStats : List CurrencyStatistic := []
  TotalBuyOrders : Int := 0
  TotalSellOrders : Int := 0
  TotalOrders : Int := 0
  WasAnyDataMissing : Bool := false
  Funding : FundingReport := (0, 0)
  BiggestDrawdown : Option FinalResultsHolder := none
  BestMarketMovement : Option FinalResultsHolder := none
  BestStrategyResults : Option FinalResultsHolder := none
deriving DecidableEq, Repr

/-- Go map read m[k] (returns `none` where Go yields the nil zero value). -/
def lookupTuple (m : List (TupleKey × CurrencyStatistic)) (k : TupleKey) :
    Option CurrencyStatistic :=
  match m with
  | [] => none
  | (k', v) :: rest => if k' = k then some v else lookupTuple rest k

/-- Go map write m[k] = v (replace the entry or append a new one). -/
def updateTuple (m : List (TupleKey × CurrencyStatistic)) (k : TupleKey)
    (v : CurrencyStatistic) : List (TupleKey × CurrencyStatistic) :=
  match m with
  | [] => [(k, v)]
  | (k', v') :: rest =>
    if k' = k then (k, v) :: rest else (k', v') :: updateTuple rest k v

/-- In-place update of index i of a slice (lookup.Events[i].X = ...). -/
def modifyAt {α : Type} : List α → Nat → (α → α) → List α
  | [], _, _ => []
  | x :: xs, 0, f => f x :: xs
  | x :: xs, n + 1, f => x :: modifyAt xs n f

/-- The tuple key of an event. -/
def eventKey (m : EventMeta) : TupleKey := (m.Exchange, m.AssetType, m.CurrencyPair)

/-- The store s with its map entry for k replaced by cs (shorthand for
stating what a successful write leaves behind). -/
def withTimeline (s : Statistic) (m : List (TupleKey × CurrencyStatistic))
    (k : TupleKey) (cs : CurrencyStatistic) : Statistic :=
  { s with ExchangeAssetPairStatistics := some (updateTuple m k cs) }

/-- The duplicate check of SetupEventForTime: same time, exchange, asset
type, pair and offset as the incoming event. -/
def sameRecord (r : EventStore) (ev : DataEvent) : Bool :=
  decide (r.DataEvent.meta.Time = ev.meta.Time) &&
  decide (r.DataEvent.meta.Exchange = ev.meta.Exchange) &&
  decide (r.DataEvent.meta.AssetType = ev.meta.AssetType) &&
  decide (r.DataEvent.meta.CurrencyPair = ev.meta.CurrencyPair) &&
  decide (r.DataEvent.meta.Offset = ev.meta.Offset)

/-- Statistic.SetupEventForTime: reject a nil event, lazily create the
nested map levels (setupMap), treat a missing tuple entry as a fresh
CurrencyStatistic, reject the event with ErrAlreadyProcessed when a record
with the same (time, exchange, asset, pair, offset) already exists, and
otherwise append a new EventStore wrapping the event and store the tuple
entry back into the map. -/
def SetupEventForTime (s : Statistic) (ev : Option DataEvent) :
    Option StatError × Statistic :=
  match ev with
  | none => (some .nilEvent, s)
  | some ev =>
    let m := s.ExchangeAssetPairStatistics.getD []
    let k := eventKey ev.meta
    let lookup := (lookupTuple m k).getD {}
    if lookup.Events.any (fun r => sameRecord r ev) then
      (some .alreadyProcessed, { s with ExchangeAssetPairStatistics := some m })
    else
      let updated := { lookup with Events := lookup.Events ++ [{ DataEvent := ev }] }
      (none, { s with ExchangeAssetPairStatistics := some (updateTuple m k updated) })

/-- The backward scan `for i := len(Events)-1; i >= 0; i--` looking for a
record whose offset equals the incoming offset: it finds the latest
matching index, so it is embedded as the search for the last match. -/
def findLatestOffset (events : List EventStore) (offset : Int) : Option Nat :=
  match events with
  | [] => none
  | e :: rest =>
    match findLatestOffset rest offset with
    | some i => some (i + 1)
    | none => if e.DataEvent.meta.Offset = offset then some 0 else none

/-- applyEventAtOffset: dispatch on the dynamic type of the event and set
the one corresponding field of Events[i]; any other type is an
unknown-event-type error. -/
def applyEventAtOffset (ev : AnyEvent) (lookup : CurrencyStatistic) (i : Nat) :
    Except StatError CurrencyStatistic :=
  match ev with
  | .dataEv d =>
    .ok { lookup with Events := modifyAt lookup.Events i (fun r => { r with DataEvent := d }) }
  | .signalEv e =>
    .ok { lookup with Events := modifyAt lookup.Events i (fun r => { r with SignalEvent := some e }) }
  | .orderEv e =>
    .ok { lookup with Events := modifyAt lookup.Events i (fun r => { r with OrderEvent := some e }) }
  | .fillEv e =>
    .ok { lookup with Events := modifyAt lookup.Events i (fun r => { r with FillEvent := some e }) }
  | .otherEv _ => .error .unknownEventType

/-- Statistic.SetEventForOffset: nil event and uninitialized-store checks,
lookup of the tuple's Timeline, backward scan for the event's offset, and
dispatch through applyEventAtOffset on the latest match; no match is not
an error and leaves the store untouched. -/
def SetEventForOffset (s : Statistic) (ev : Option AnyEvent) :
    Option StatError × Statistic :=
  match ev with
  | none => (some .nilEvent, s)
  | some ev =>
    match s.ExchangeAssetPairStatistics with
    | none => (some .statisticsUnset, s)
    | some m =>
      let k := eventKey ev.meta
      match lookupTuple m k with
      | none => (some .currencyStatisticsUnset, s)
      | some lookup =>
        match findLatestOffset lookup.Events ev.meta.Offset with
        | none => (none, s)
        | some i =>
          match applyEventAtOffset ev lookup i with
          | .error e => (some e, s)
          | .ok lookup2 =>
            (none, { s with ExchangeAssetPairStatistics := some (updateTuple m k lookup2) })

/-- Loop body of GetBestMarketPerformer.  The Go loop replaces the running
best when the candidate's MarketMovement is strictly greater or the
running best's MarketMovement is zero — and then immediately `break`s, so
a replacement ends the scan. -/
def getBestMarketLoop (result : FinalResultsHolder) :
    List FinalResultsHolder → FinalResultsHolder
  | [] => result
  | r :: rest =>
    if result.MarketMovement < r.MarketMovement ∨ result.MarketMovement = 0 then r
    else getBestMarketLoop result rest

/-- Statistic.GetBestMarketPerformer. -/
def GetBestMarketPerformer (results : List FinalResultsHolder) : FinalResultsHolder :=
  getBestMarketLoop {} results

/-- Statistic.GetBestStrategyPerformer: running best initialized to the
zero value, replaced whenever the candidate's StrategyMovement is strictly
greater or the running best's StrategyMovement is zero (no break). -/
def GetBestStrategyPerformer (results : List FinalResultsHolder) : FinalResultsHolder :=
  results.foldl
    (fun result r =>
      if result.StrategyMovement < r.StrategyMovement ∨ result.StrategyMovement = 0 then r
      else result)
    {}

/-- Statistic.GetTheBiggestDrawdownAcrossCurrencies: same rule over
MaxDrawdown.DrawdownPercent (no break). -/
def GetTheBiggestDrawdownAcrossCurrencies (results : List FinalResultsHolder) : FinalResultsHolder :=
  results.foldl
    (fun result r =>
      if result.MaxDrawdown.DrawdownPercent < r.MaxDrawdown.DrawdownPercent ∨
          result.MaxDrawdown.DrawdownPercent = 0 then r
      else result)
    {}

/-- funding.IFundingManager, the external funding source: a funding view
per event (which may fail with an opaque error code), a report generator,
and the exchange-level-funding flag. -/
structure IFundingManager where
  GetFundingForEvent : AnyEvent → Except Int FundingView
  GenerateReport : Time → Time → FundingReport
  IsUsingExchangeLevelFunding : Bool := false

/-- The external per-tuple calculator (CurrencyStatistic.CalculateResults):
given the tuple statistics and a funding view it either returns the
statistics with drawdown/movement/order-count fields populated, or fails
with an opaque error code (which CalculateAllResults merely logs). -/
abbrev Calculator := CurrencyStatistic → FundingView → Except Int CurrencyStatistic

/-- The loop-carried state of CalculateAllResults: the tuple counter, the
accumulated finalResults slice, the startDate/endDate variables
(overwritten on every iteration) and the mutated Statistic receiver. -/
structure LoopState where
  currCount : Nat := 0
  finalResults : List FinalResultsHolder := []
  startDate : Time := 0
  endDate : Time := 0
  stat : Statistic := {}

/-- The event used for the funding lookup of a tuple: the terminal
record's fill event if present, else its signal event, else its
market-data event. -/
def activeEvent (last : EventStore) : AnyEvent :=
  match last.FillEvent with
  | some f => .fillEv f
  | none =>
    match last.SignalEvent with
    | some g => .signalEv g
    | none => .dataEv last.DataEvent

/-- One iteration of the CalculateAllResults loop over a tuple (k, stats):
read the first and terminal records (a Go panic on an empty Events slice
is the indexOutOfRange error), overwrite startDate/endDate, look up
funding for the active event (an error aborts the pass), run the external
calculator (an error is logged and the unmodified statistics are kept),
populate the final/initial holdings and final compliance fields, append
the tuple's summary to finalResults and AllStats, add its buy/sell counts
to the totals and fold its missing-data flag into the run-wide flag. -/
def processTuple (fs : IFundingManager) (calcF : Calculator) (st : LoopState)
    (k : TupleKey) (stats : CurrencyStatistic) : Except StatError LoopState :=
  match stats.Events.getLast?, stats.Events.head? with
  | some last, some first =>
    match fs.GetFundingForEvent (activeEvent last) with
    | .error e => .error (.fundingErr e)
    | .ok f =>
      let stats1 := match calcF stats f with
        | .ok c => c
        | .error _ => stats
      let stats2 := { stats1 with
        FinalHoldings := last.Holdings
        InitialHoldings := first.Holdings
        FinalOrders := last.Transactions }
      let frh : FinalResultsHolder := {
        Exchange := k.1
        Asset := k.2.1
        Pair := k.2.2
        MaxDrawdown := stats2.MaxDrawdown
        MarketMovement := stats2.MarketMovement
        StrategyMovement := stats2.StrategyMovement }
      .ok { currCount := st.currCount + 1
            finalResults := st.finalResults ++ [frh]
            startDate := first.DataEvent.meta.Time
            endDate := last.DataEvent.meta.Time
            stat := { st.stat with
              ExchangeAssetPairStatistics :=
                some (updateTuple (st.stat.ExchangeAssetPairStatistics.getD []) k stats2)
              AllStats := st.stat.AllStats ++ [stats2]
              TotalBuyOrders := st.stat.TotalBuyOrders + stats2.BuyOrders
              TotalSellOrders := st.stat.TotalSellOrders + stats2.SellOrders
              WasAnyDataMissing := st.stat.WasAnyDataMissing || stats2.ShowMissingDataWarning } }
  | _, _ => .error .indexOutOfRange

/-- The triple range loop of CalculateAllResults over the association
list; an error from a tuple aborts the loop immediately, leaving the state
accumulated so far. -/
def calcLoop (fs : IFundingManager) (calcF : Calculator) :
    List (TupleKey × CurrencyStatistic) → LoopState → Option StatError × LoopState
  | [], st => (none, st)
  | kv :: rest, st =>
    match processTuple fs calcF st kv.1 kv.2 with
    | .error e => (some e, st)
    | .ok st' => calcLoop fs calcF rest st'

/-- Statistic.CalculateAllResults: iterate every tuple (funding-lookup
errors abort and are returned; calculation errors are logged and skipped),
then build the funding report from the loop's final startDate/endDate,
total the orders, and when more than one tuple was processed compute the
cross-tuple best performers from the collected finalResults.
PrintAllEventsChronologically and the other print functions write only to
the logging sink, so they have no embedded effect. -/
def CalculateAllResults (fs : IFundingManager) (calcF : Calculator) (s : Statistic) :
    Option StatError × Statistic :=
  let m := s.ExchangeAssetPairStatistics.getD []
  match calcLoop fs calcF m { stat := s } with
  | (some e, st) => (some e, st.stat)
  | (none, st) =>
    let s1 := { st.stat with
      Funding := fs.GenerateReport st.startDate st.endDate
      TotalOrders := st.stat.TotalBuyOrders + st.stat.TotalSellOrders }
    if st.currCount > 1 then
      (none, { s1 with
        BiggestDrawdown := some (GetTheBiggestDrawdownAcrossCurrencies st.finalResults)
        BestMarketMovement := some (GetBestMarketPerformer st.finalResults)
        BestStrategyResults := some (GetBestStrategyPerformer st.finalResults) })
    else
      (none, s1)

/-- config.MinMax: per-direction sizing constraints; a zero MaximumSize or
MaximumTotal means unbounded for that dimension. -/
structure MinMax where
  MinimumSize : ℚ := 0
  MaximumSize : ℚ := 0
  MaximumTotal : ℚ := 0
deriving DecidableEq, Repr

/-- Errors of the sizing engine. -/
inductive SizeError where
  | nilArgument
  | noFunds
  | lessThanMinimum
  | cannotAllocate
deriving DecidableEq, Repr

/-- Modelled from the spec: the shared algorithm of `calculateBuySize` and
`calculateSellSize` (spec §4.3 steps 1–7), whose Go source (package size)
is not in the tree.  Fail with NoFunds on nonpositive funds; take the
minimum of the directional limit, the fee-deflated affordability ceiling
`availableFunds*(1-feeRate)/price`, and — only when MaximumTotal is
nonzero — the fee-deflated exposure ceiling
`MaximumTotal*(1-feeRate)/price`; apply the upper clamp to MaximumSize
unless MaximumSize is zero (the lower bound is enforced by the
LessThanMinimum failure of step 6, which spec scenario C shows is reached
instead of clamping up to MinimumSize); fail with LessThanMinimum when the
result is strictly below a nonzero MinimumSize. -/
def sizeCore (price availableFunds feeRate limit : ℚ) (minMaxSettings : MinMax) :
    Except SizeError ℚ :=
  if availableFunds ≤ 0 then .error .noFunds
  else
    let fundsCeiling := availableFunds * (1 - feeRate) / price
    let candidate :=
      if minMaxSettings.MaximumTotal ≠ 0 then
        min limit (min fundsCeiling (minMaxSettings.MaximumTotal * (1 - feeRate) / price))
      else
        min limit fundsCeiling
    let clamped :=
      if minMaxSettings.MaximumSize ≠ 0 then min candidate minMaxSettings.MaximumSize
      else candidate
    if clamped < minMaxSettings.MinimumSize ∧ minMaxSettings.MinimumSize ≠ 0 then
      .error .lessThanMinimum
    else
      .ok clamped

/-- Modelled from the spec: Size.calculateBuySize (§4.3). -/
def calculateBuySize (price availableFunds feeRate buyLimit : ℚ)
    (minMaxSettings : MinMax) : Except SizeError ℚ :=
  sizeCore price availableFunds feeRate buyLimit minMaxSettings

/-- Modelled from the spec: Size.calculateSellSize (§4.3); the spec states
the fee buffer and the whole algorithm are identical on both paths. -/
def calculateSellSize (price availableFunds feeRate sellLimit : ℚ)
    (minMaxSettings : MinMax) : Except SizeError ℚ :=
  sizeCore price availableFunds feeRate sellLimit minMaxSettings

/-- gctorder direction as far as sizing is concerned: buy, sell, or any
other/unset direction. -/
inductive Direction where
  | buy
  | sell
  | unset
deriving DecidableEq, Repr

/-- backtester order event, reduced to what SizeOrder reads and writes. -/
structure Order where
  Direction : Direction := .unset
  Price : ℚ := 0
  Amount : ℚ := 0
deriving DecidableEq, Repr

/-- exchange.Settings, reduced to the fee rate the sizer uses. -/
structure Settings where
  TakerFee : ℚ := 0
deriving DecidableEq, Repr

/-- The sizing engine's state: per-direction constraints. -/
structure Size where
  BuySide : MinMax := {}
  SellSide : MinMax := {}
deriving DecidableEq, Repr

/-- Modelled from the spec: Size.SizeOrder (§4.3).  NilArgument when the
order (or the settings object) is absent; the funds check precedes the
direction dispatch (the in-tree test TestSizeOrder expects NoFunds for a
zero-price order with zero funds, so the check does not look at the
price); the directional limit is the maximum affordable raw quantity
availableFunds/price; dispatch on the direction, any direction other than
buy or sell failing with CannotAllocate; on success return the same order
with its quantity updated. -/
def SizeOrder (s : Size) (o : Option Order) (availableFunds : ℚ)
    (cs : Option Settings) : Except SizeError Order :=
  match o, cs with
  | none, _ => .error .nilArgument
  | _, none => .error .nilArgument
  | some o, some cs =>
    if availableFunds ≤ 0 then .error .noFunds
    else
      let limit := availableFunds / o.Price
      match o.Direction with
      | .buy =>
        (calculateBuySize o.Price availableFunds cs.TakerFee limit s.BuySide).map
          (fun q => { o with Amount := q })
      | .sell =>
        (calculateSellSize o.Price availableFunds cs.TakerFee limit s.SellSide).map
          (fun q => { o with Amount := q })
      | .unset => .error .cannotAllocate

/-- All record times registered in a store, across every tuple's Timeline
(used to state what the earliest/latest observed record times are). -/
def allRecordTimes (s : Statistic) : List Time :=
  (s.ExchangeAssetPairStatistics.getD []).flatMap
    (fun kv => kv.2.Events.map (fun r => r.DataEvent.meta.Time))

/-- Concrete event identification used by the witnesses. -/
def metaA : EventMeta :=
  { Exchange := "binance", AssetType := "spot",
    CurrencyPair := { Base := "BTC", Quote := "USDT" }, Time := 1, Offset := 1 }

/-- Concrete market-data event. -/
def devA : DataEvent := { meta := metaA }

/-- Concrete timeline record wrapping devA. -/
def recA : EventStore := { DataEvent := devA }

/-- Concrete per-tuple statistics holding the single record recA. -/
def csA : CurrencyStatistic := { Events := [recA] }

/-- Concrete store with one tuple whose Timeline holds recA. -/
def storeA : Statistic :=
  { ExchangeAssetPairStatistics := some [(eventKey metaA, csA)] }

/-- Concrete store with one registered tuple whose Timeline is empty. -/
def storeEmptyTimeline : Statistic :=
  { ExchangeAssetPairStatistics := some [(eventKey metaA, {})] }

/-- Two-tuple store: the first tuple's records span times 0..10, the
second (iterated last) tuple's records span times 2..3. -/
def storeMulti : Statistic :=
  { ExchangeAssetPairStatistics := some
      [(eventKey metaA,
        { Events := [{ DataEvent := { meta := { metaA with Time := 0, Offset := 1 } } },
                     { DataEvent := { meta := { metaA with Time := 10, Offset := 2 } } }] }),
       (("kraken", "spot", { Base := "ETH", Quote := "USDT" }),
        { Events := [{ DataEvent := { meta := { metaA with Exchange := "kraken", Time := 2, Offset := 1 } } },
                     { DataEvent := { meta := { metaA with Exchange := "kraken", Time := 3, Offset := 2 } } }] })] }

/-- Funding source whose report records its own arguments and whose
funding lookups always succeed. -/
def fsId : IFundingManager :=
  { GetFundingForEvent := fun _ => .ok 0
    GenerateReport := fun a b => (a, b) }

/-- Funding source whose lookups always fail with error code 7. -/
def fsErr : IFundingManager :=
  { GetFundingForEvent := fun _ => .error 7
    GenerateReport := fun a b => (a, b) }

/-- Calculator that always succeeds and changes nothing. -/
def calcId : Calculator := fun c _ => .ok c

/-- Calculator that always fails with error code 3. -/
def calcFail : Calculator := fun _ _ => .error 3

/-- FinalResultsHolder with zero market movement. -/
def frhZeroMkt : FinalResultsHolder :=
  { Pair := { Base := "BTC", Quote := "USDT" }, MarketMovement := 0 }

/-- FinalResultsHolder with positive market movement, distinct from
frhZeroMkt. -/
def frhPosMkt : FinalResultsHolder :=
  { Pair := { Base := "ETH", Quote := "USDT" }, MarketMovement := 5 }

/-- Zero-metric holder tagged "a". -/
def frhA0 : FinalResultsHolder := { Exchange := "a" }

/-- Positive-metric holder tagged "b". -/
def frhB5 : FinalResultsHolder :=
  { Exchange := "b", StrategyMovement := 5, MaxDrawdown := { DrawdownPercent := 5 } }

/-- Zero-metric holder tagged "c". -/
def frhC0 : FinalResultsHolder := { Exchange := "c" }

/-- Zero-metric holder tagged "d". -/
def frhD0 : FinalResultsHolder := { Exchange := "d" }

/-- csA after its only record's signal field is set to the signal event
sharing metaA. -/
def csASig : CurrencyStatistic :=
  { csA with Events := modifyAt csA.Events 0 (fun r => { r with SignalEvent := some { meta := metaA } }) }

section SizingProofs

/-- Every successful sizeCore result respects the nonzero maximum size,
the directional limit, and the fee-inclusive exposure bound, with equality
when the result sits exactly on the exposure ceiling. -/
theorem sizeCore_ok_bounds (price funds fee limit q : ℚ) (c : MinMax)
    (hp : 0 < price) (h : sizeCore price funds fee limit c = .ok q) :
    (c.MaximumSize ≠ 0 → q ≤ c.MaximumSize) ∧ q ≤ limit ∧
    (c.MaximumTotal ≠ 0 → price * q + fee * c.MaximumTotal ≤ c.MaximumTotal) ∧
    (c.MaximumTotal ≠ 0 → q = c.MaximumTotal * (1 - fee) / price →
      price * q + fee * c.MaximumTotal = c.MaximumTotal) := by
  have hdiv : ∀ a : ℚ, a ≤ c.MaximumTotal * (1 - fee) / price →
      price * a + fee * c.MaximumTotal ≤ c.MaximumTotal := by
    intro a ha
    rw [le_div_iff₀ hp] at ha
    nlinarith
  have heq : q = c.MaximumTotal * (1 - fee) / price →
      price * q + fee * c.MaximumTotal = c.MaximumTotal := by
    intro hq
    rw [hq]
    field_simp
    ring
  simp only [sizeCore] at h
  split_ifs at h
  all_goals (injection h with h; subst h)
  all_goals refine ⟨fun hMs => ?_, ?_, fun hTs => ?_, fun _ => heq⟩
  all_goals first
    | (apply hdiv; simp [min_le_iff, le_refl]; done)
    | (simp [min_le_iff, le_refl]; done)
    | tauto

/-- C1 (amended): every quantity returned without error by
calculateBuySize or calculateSellSize is at most the configured
MaximumSize when that maximum is nonzero, at most the directional limit
argument, and, when MaximumTotal is nonzero, satisfies
price*quantity + feeRate*MaximumTotal ≤ MaximumTotal — with equality when
the exposure bound MaximumTotal*(1-feeRate)/price is the binding
constraint (the quantity equals it); when the funds bound is the binding
constraint the fee-inclusive cost can sit strictly below MaximumTotal. -/
theorem calculateSize_bounds (price funds fee limit q : ℚ) (c : MinMax)
    (hp : 0 < price)
    (h : calculateBuySize price funds fee limit c = .ok q ∨
         calculateSellSize price funds fee limit c = .ok q) :
    (c.MaximumSize ≠ 0 → q ≤ c.MaximumSize) ∧ q ≤ limit ∧
    (c.MaximumTotal ≠ 0 → price * q + fee * c.MaximumTotal ≤ c.MaximumTotal) ∧
    (c.MaximumTotal ≠ 0 → q = c.MaximumTotal * (1 - fee) / price →
      price * q + fee * c.MaximumTotal = c.MaximumTotal) := by
  rcases h with h | h
  · exact sizeCore_ok_bounds price funds fee limit q c hp h
  · exact sizeCore_ok_bounds price funds fee limit q c hp h

/-- C1 witness: the bounds theorem applied to spec scenario A
(price 10, funds 11, fee 2%, limit 1, constraints (0, 1, 10)), whose
successful result is 49/50. -/
theorem calculateSize_bounds_witness :
    (0 : ℚ) < 10 ∧
    (((1 : ℚ) ≠ 0 → (49/50 : ℚ) ≤ 1) ∧ (49/50 : ℚ) ≤ 1 ∧
     ((10 : ℚ) ≠ 0 → 10 * (49/50 : ℚ) + (2/100) * 10 ≤ 10) ∧
     ((10 : ℚ) ≠ 0 → (49/50 : ℚ) = 10 * (1 - 2/100) / 10 →
        10 * (49/50 : ℚ) + (2/100) * 10 = 10)) :=
  ⟨by norm_num,
   calculateSize_bounds 10 11 (2/100) 1 (49/50) ⟨0, 1, 10⟩ (by norm_num)
     (Or.inl (by norm_num [calculateBuySize, sizeCore, min_def]))⟩

/-- C1 counterexample: with price 10, funds 5, feeRate 0, limit 100 and
constraints (0, 0, 10), the funds ceiling funds*(1-fee)/price = 1/2 is the
strictly binding constraint (strictly below both the exposure ceiling 1
and the limit 100), the call succeeds with quantity 1/2, and the cost
price*quantity + feeRate*MaximumTotal = 5 is strictly below MaximumTotal
= 10: equality at the funds-bound case fails. -/
theorem calculateBuySize_funds_bound_strict :
    calculateBuySize 10 5 0 100 ⟨0, 0, 10⟩ = .ok (1/2) ∧
    (5 * (1 - 0) / 10 : ℚ) = 1/2 ∧
    ((1/2 : ℚ) < 10 * (1 - 0) / 10) ∧ ((1/2 : ℚ) < 100) ∧
    (10 * (1/2 : ℚ) + 0 * 10 < 10) := by
  refine ⟨?_, by norm_num, by norm_num, by norm_num, by norm_num⟩
  norm_num [calculateBuySize, sizeCore, min_def]

/-- C9: spec scenario A — minimumSize 0, maximumSize 1, maximumTotal 10,
price 10, availableFunds 11, feeRate 0.02, directionalLimit 1 — succeeds
with quantity exactly 0.98, and in exact arithmetic
10*0.98 + 10*0.02 = 10. -/
theorem calculateBuySize_scenarioA :
    calculateBuySize 10 11 (2/100) 1 ⟨0, 1, 10⟩ = .ok (98/100) ∧
    (10 : ℚ) * (98/100) + 10 * (2/100) = 10 := by
  refine ⟨?_, by norm_num⟩
  norm_num [calculateBuySize, sizeCore, min_def]

/-- C7: SizeOrder fails with NilArgument on an absent order; with zero
available funds and an order of nonzero price it fails with NoFunds (the
funds check precedes the direction dispatch, so no direction is needed to
reach it); with positive funds, nonzero price and a direction that is
neither buy nor sell it fails with CannotAllocate. -/
theorem SizeOrder_error_cases (sz : Size) (o : Order) (f g : ℚ) (cs : Settings)
    (c : Option Settings) :
    SizeOrder sz none g c = .error .nilArgument ∧
    (o.Price ≠ 0 → SizeOrder sz (some o) 0 (some cs) = .error .noFunds) ∧
    (0 < f → o.Price ≠ 0 → o.Direction = .unset →
      SizeOrder sz (some o) f (some cs) = .error .cannotAllocate) := by
  refine ⟨by cases c <;> rfl, fun _ => by simp [SizeOrder], fun hf _ hdir => ?_⟩
  simp [SizeOrder, hdir, not_le.mpr hf]

/-- C7 witness: the error-case theorem at concrete inputs (price 1,
unset direction, funds 0 and 1337). -/
theorem SizeOrder_error_cases_witness :
    SizeOrder {} none 0 none = .error .nilArgument ∧
    SizeOrder {} (some { Direction := .unset, Price := 1 }) 0 (some {}) = .error .noFunds ∧
    SizeOrder {} (some { Direction := .unset, Price := 1 }) 1337 (some {}) = .error .cannotAllocate := by
  obtain ⟨h1, h2, h3⟩ :=
    SizeOrder_error_cases {} { Direction := .unset, Price := 1 } 1337 0 {} none
  exact ⟨h1, h2 (by norm_num), h3 (by norm_num) (by norm_num) rfl⟩

end SizingProofs

section StoreProofs

/-- C2: when the store already holds, in the Timeline of the event's own
tuple, a record matching the incoming event's exchange, asset, pair, time
and offset, SetupEventForTime rejects the event with AlreadyProcessed and
the store — in particular that Timeline's length and contents — is
exactly what it was before the call. -/
theorem SetupEventForTime_duplicate (s : Statistic)
    (m : List (TupleKey × CurrencyStatistic)) (cs : CurrencyStatistic)
    (ev : DataEvent) (r : EventStore)
    (hm : s.ExchangeAssetPairStatistics = some m)
    (hcs : lookupTuple m (eventKey ev.meta) = some cs)
    (hr : r ∈ cs.Events)
    (ht : r.DataEvent.meta.Time = ev.meta.Time)
    (hx : r.DataEvent.meta.Exchange = ev.meta.Exchange)
    (ha : r.DataEvent.meta.AssetType = ev.meta.AssetType)
    (hcp : r.DataEvent.meta.CurrencyPair = ev.meta.CurrencyPair)
    (ho : r.DataEvent.meta.Offset = ev.meta.Offset) :
    SetupEventForTime s (some ev) = (some .alreadyProcessed, s) := by
  have hany : cs.Events.any (fun rr => sameRecord rr ev) = true := by
    refine List.any_eq_true.mpr ⟨r, hr, ?_⟩
    simp [sameRecord, ht, hx, ha, hcp, ho]
  have hs : { s with ExchangeAssetPairStatistics := some m } = s := by
    cases s
    simp_all
  simp [SetupEventForTime, hm, hcs, hany, hs]

/-- C2 witness: re-recording the event already held by storeA's single
Timeline fails with AlreadyProcessed and returns storeA unchanged. -/
theorem SetupEventForTime_duplicate_witness :
    SetupEventForTime storeA (some devA) = (some .alreadyProcessed, storeA) :=
  SetupEventForTime_duplicate storeA [(eventKey metaA, csA)] csA devA recA
    rfl (by decide) (by decide) rfl rfl rfl rfl rfl

end StoreProofs

section BestPerformerProofs

/-- C3 counterexample: on the list [frhZeroMkt, frhPosMkt] — one
zero-movement entry followed by one positive-movement entry —
GetBestMarketPerformer returns the zero-movement first entry, not the
positive entry the claim requires. -/
theorem GetBestMarketPerformer_cex :
    GetBestMarketPerformer [frhZeroMkt, frhPosMkt] = frhZeroMkt ∧
    frhZeroMkt.MarketMovement = 0 ∧ 0 < frhPosMkt.MarketMovement ∧
    GetBestMarketPerformer [frhZeroMkt, frhPosMkt] ≠ frhPosMkt := by decide

/-- C3 (amended): GetBestMarketPerformer's loop breaks immediately after
its first replacement, and the zero-value-initialized running best makes
the replacement condition true at the very first candidate, so the
function returns the first entry of every non-empty list (and the zero
holder for the empty list).  In particular a zero-movement entry followed
by a positive-movement entry yields the zero entry, and an all-zero list
yields its first entry. -/
theorem GetBestMarketPerformer_eq_head (r : FinalResultsHolder)
    (rest : List FinalResultsHolder) :
    GetBestMarketPerformer (r :: rest) = r ∧
    GetBestMarketPerformer [] = ({} : FinalResultsHolder) := by
  constructor
  · show (if _ ∨ ({} : FinalResultsHolder).MarketMovement = 0 then r else _) = r
    exact if_pos (Or.inr rfl)
  · rfl

/-- Helper for C4: over a list whose entries all have zero
StrategyMovement, the replace-on-greater-or-zero fold starting from a
zero-metric accumulator ends on the last entry. -/
theorem bestStrategyFold_all_zero (l : List FinalResultsHolder) :
    ∀ (init : FinalResultsHolder), init.StrategyMovement = 0 →
    ∀ (hl : l ≠ []), (∀ r ∈ l, r.StrategyMovement = 0) →
    l.foldl (fun result r =>
      if result.StrategyMovement < r.StrategyMovement ∨ result.StrategyMovement = 0 then r
      else result) init = l.getLast hl := by
  induction l with
  | nil => intro _ _ hl _; exact absurd rfl hl
  | cons a rest ih =>
    intro init hinit hl hz
    rw [List.foldl_cons, if_pos (Or.inr hinit)]
    cases rest with
    | nil => rfl
    | cons b rest' =>
      rw [List.getLast_cons (by simp)]
      exact ih a (hz a (by simp)) (by simp) (fun r hr => hz r (List.mem_cons_of_mem a hr))

/-- Helper for C4: the same fact for the drawdown-percent fold. -/
theorem biggestDrawdownFold_all_zero (l : List FinalResultsHolder) :
    ∀ (init : FinalResultsHolder), init.MaxDrawdown.DrawdownPercent = 0 →
    ∀ (hl : l ≠ []), (∀ r ∈ l, r.MaxDrawdown.DrawdownPercent = 0) →
    l.foldl (fun result r =>
      if result.MaxDrawdown.DrawdownPercent < r.MaxDrawdown.DrawdownPercent ∨
          result.MaxDrawdown.DrawdownPercent = 0 then r
      else result) init = l.getLast hl := by
  induction l with
  | nil => intro _ _ hl _; exact absurd rfl hl
  | cons a rest ih =>
    intro init hinit hl hz
    rw [List.foldl_cons, if_pos (Or.inr hinit)]
    cases rest with
    | nil => rfl
    | cons b rest' =>
      rw [List.getLast_cons (by simp)]
      exact ih a (hz a (by simp)) (by simp) (fun r hr => hz r (List.mem_cons_of_mem a hr))

/-- C4: GetBestStrategyPerformer (over StrategyMovement) and
GetTheBiggestDrawdownAcrossCurrencies (over MaxDrawdown.DrawdownPercent)
replace a zero-value-initialized running best whenever the candidate's
metric is strictly greater or the running best's metric is zero: a
zero-metric entry followed by a positive-metric entry yields the positive
entry, and an all-zero list yields its last entry. -/
theorem bestStrategy_and_drawdown_zero_rule (a b : FinalResultsHolder)
    (l : List FinalResultsHolder) (hl : l ≠ [])
    (ha : a.StrategyMovement = 0) (hb : 0 < b.StrategyMovement)
    (ha' : a.MaxDrawdown.DrawdownPercent = 0) (hb' : 0 < b.MaxDrawdown.DrawdownPercent)
    (hz : ∀ r ∈ l, r.StrategyMovement = 0)
    (hz' : ∀ r ∈ l, r.MaxDrawdown.DrawdownPercent = 0) :
    GetBestStrategyPerformer [a, b] = b ∧
    GetTheBiggestDrawdownAcrossCurrencies [a, b] = b ∧
    GetBestStrategyPerformer l = l.getLast hl ∧
    GetTheBiggestDrawdownAcrossCurrencies l = l.getLast hl := by
  refine ⟨?_, ?_, ?_, ?_⟩
  · show List.foldl _ _ [a, b] = b
    rw [List.foldl_cons, if_pos (Or.inr rfl), List.foldl_cons, if_pos (Or.inr ha)]
    rfl
  · show List.foldl _ _ [a, b] = b
    rw [List.foldl_cons, if_pos (Or.inr rfl), List.foldl_cons, if_pos (Or.inr ha')]
    rfl
  · exact bestStrategyFold_all_zero l {} rfl hl hz
  · exact biggestDrawdownFold_all_zero l {} rfl hl hz'

/-- C4 witness: the zero rule applied at concrete holders — the
zero-then-positive pair yields the positive entry and a concrete all-zero
two-element list yields its last entry, for both selectors. -/
theorem bestStrategy_and_drawdown_zero_rule_witness :
    GetBestStrategyPerformer [frhA0, frhB5] = frhB5 ∧
    GetTheBiggestDrawdownAcrossCurrencies [frhA0, frhB5] = frhB5 ∧
    GetBestStrategyPerformer [frhC0, frhD0] = frhD0 ∧
    GetTheBiggestDrawdownAcrossCurrencies [frhC0, frhD0] = frhD0 :=
  bestStrategy_and_drawdown_zero_rule frhA0 frhB5 [frhC0, frhD0] (by decide)
    rfl (by norm_num [frhB5]) rfl (by norm_num [frhB5]) (by decide) (by decide)

end BestPerformerProofs

section OffsetScanProofs

/-- The backward scan finds nothing exactly when no record carries the
offset. -/
theorem findLatestOffset_eq_none (l : List EventStore) (off : Int)
    (h : ∀ r ∈ l, r.DataEvent.meta.Offset ≠ off) :
    findLatestOffset l off = none := by
  induction l with
  | nil => rfl
  | cons e rest ih =>
    have hrest := ih (fun r hr => h r (List.mem_cons_of_mem e hr))
    simp [findLatestOffset, hrest, h e (List.mem_cons_self e rest)]

/-- The backward scan stops at i when record i carries the offset and no
later record does. -/
theorem findLatestOffset_eq_some (l : List EventStore) (off : Int) (i : Nat)
    (hi : i < l.length)
    (hmatch : (l.get ⟨i, hi⟩).DataEvent.meta.Offset = off)
    (hlatest : ∀ j (hj : j < l.length), i < j →
      (l.get ⟨j, hj⟩).DataEvent.meta.Offset ≠ off) :
    findLatestOffset l off = some i := by
  induction l generalizing i with
  | nil => simp at hi
  | cons e rest ih =>
    cases i with
    | zero =>
      have hnone : findLatestOffset rest off = none := by
        apply findLatestOffset_eq_none
        intro r hr
        obtain ⟨⟨j, hj⟩, rfl⟩ := List.mem_iff_get.mp hr
        exact hlatest (j + 1) (Nat.succ_lt_succ hj) (Nat.succ_pos j)
      have he : e.DataEvent.meta.Offset = off := by simpa using hmatch
      simp [findLatestOffset, hnone, he]
    | succ n =>
      have hrest : findLatestOffset rest off = some n := by
        refine ih n (Nat.lt_of_succ_lt_succ hi) hmatch ?_
        intro j hj hlt
        exact hlatest (j + 1) (Nat.succ_lt_succ hj) (Nat.succ_lt_succ hlt)
      simp [findLatestOffset, hrest]

/-- C6: for an event whose tuple has a Timeline in an initialized store,
SetEventForOffset leaves the store untouched and reports no error when no
record carries the event's offset; and when record i is the latest record
carrying the event's offset, it updates exactly the field of record i
matching the event's kind (market-data, signal, order or fill), failing
with the unknown-event-type error for any other kind. -/
theorem SetEventForOffset_scan (s : Statistic)
    (m : List (TupleKey × CurrencyStatistic)) (cs : CurrencyStatistic)
    (ev : AnyEvent)
    (hm : s.ExchangeAssetPairStatistics = some m)
    (hcs : lookupTuple m (eventKey ev.meta) = some cs) :
    ((∀ r ∈ cs.Events, r.DataEvent.meta.Offset ≠ ev.meta.Offset) →
      SetEventForOffset s (some ev) = (none, s)) ∧
    (∀ i (hi : i < cs.Events.length),
      (cs.Events.get ⟨i, hi⟩).DataEvent.meta.Offset = ev.meta.Offset →
      (∀ j (hj : j < cs.Events.length), i < j →
        (cs.Events.get ⟨j, hj⟩).DataEvent.meta.Offset ≠ ev.meta.Offset) →
      SetEventForOffset s (some ev) =
        match ev with
        | .dataEv d => (none, withTimeline s m (eventKey ev.meta)
            { cs with Events := modifyAt cs.Events i (fun r => { r with DataEvent := d }) })
        | .signalEv e => (none, withTimeline s m (eventKey ev.meta)
            { cs with Events := modifyAt cs.Events i (fun r => { r with SignalEvent := some e }) })
        | .orderEv e => (none, withTimeline s m (eventKey ev.meta)
            { cs with Events := modifyAt cs.Events i (fun r => { r with OrderEvent := some e }) })
        | .fillEv e => (none, withTimeline s m (eventKey ev.meta)
            { cs with Events := modifyAt cs.Events i (fun r => { r with FillEvent := some e }) })
        | .otherEv _ => (some .unknownEventType, s)) := by
  constructor
  · intro hno
    have hnone := findLatestOffset_eq_none cs.Events ev.meta.Offset hno
    simp [SetEventForOffset, hm, hcs, hnone]
  · intro i hi hmatch hlatest
    have hsome := findLatestOffset_eq_some cs.Events ev.meta.Offset i hi hmatch hlatest
    cases ev with
    | dataEv d => simp [SetEventForOffset, AnyEvent.meta] at hcs hsome ⊢
                  simp [hm, hcs, hsome, applyEventAtOffset, withTimeline]
    | signalEv e => simp [SetEventForOffset, AnyEvent.meta] at hcs hsome ⊢
                    simp [hm, hcs, hsome, applyEventAtOffset, withTimeline]
    | orderEv e => simp [SetEventForOffset, AnyEvent.meta] at hcs hsome ⊢
                   simp [hm, hcs, hsome, applyEventAtOffset, withTimeline]
    | fillEv e => simp [SetEventForOffset, AnyEvent.meta] at hcs hsome ⊢
                  simp [hm, hcs, hsome, applyEventAtOffset, withTimeline]
    | otherEv u => simp [SetEventForOffset, AnyEvent.meta] at hcs hsome ⊢
                   simp [hm, hcs, hsome, applyEventAtOffset, withTimeline]

/-- C6 witness: on storeA, a signal event with unmatched offset 99 is
silently ignored, and a signal event matching offset 1 (the latest and
only record) sets exactly that record's signal field. -/
theorem SetEventForOffset_scan_witness :
    SetEventForOffset storeA
      (some (.signalEv { meta := { metaA with Offset := 99 } })) = (none, storeA) ∧
    SetEventForOffset storeA (some (.signalEv { meta := metaA })) =
      (none, withTimeline storeA [(eventKey metaA, csA)] (eventKey metaA) csASig) := by
  constructor
  · exact (SetEventForOffset_scan storeA [(eventKey metaA, csA)] csA
      (.signalEv { meta := { metaA with Offset := 99 } }) rfl (by decide)).1 (by decide)
  · exact (SetEventForOffset_scan storeA [(eventKey metaA, csA)] csA
      (.signalEv { meta := metaA }) rfl (by decide)).2 0 (by decide) (by decide)
      (fun j hj hlt => absurd (Nat.lt_of_lt_of_le hlt (Nat.le_of_lt_succ hj)) (by decide))

end OffsetScanProofs

section AggregatorProofs

/-- C5: during CalculateAllResults a funding-lookup error for a tuple is
returned immediately, aborting the whole aggregation pass; a per-tuple
calculation error does not abort the tuple's processing: the loop step
still succeeds, the tuple's final/initial holdings and final compliance
fields are populated, its FinalResultsHolder is appended to the results
list, and its buy/sell counts are added to the global totals. -/
theorem CalculateAllResults_error_policy (fs : IFundingManager)
    (calcF : Calculator) (s : Statistic)
    (rest : List (TupleKey × CurrencyStatistic)) (k : TupleKey)
    (cs : CurrencyStatistic) (st : LoopState) (lastE : EventStore)
    (e ec : Int) (v : FundingView) :
    (s.ExchangeAssetPairStatistics = some ((k, cs) :: rest) →
      cs.Events.getLast? = some lastE →
      fs.GetFundingForEvent (activeEvent lastE) = .error e →
      CalculateAllResults fs calcF s = (some (.fundingErr e), s)) ∧
    (∀ firstE, cs.Events.getLast? = some lastE →
      cs.Events.head? = some firstE →
      fs.GetFundingForEvent (activeEvent lastE) = .ok v →
      calcF cs v = .error ec →
      ∃ st', processTuple fs calcF st k cs = .ok st' ∧
        st'.finalResults = st.finalResults ++
          [{ Exchange := k.1
             Asset := k.2.1
             Pair := k.2.2
             MaxDrawdown := cs.MaxDrawdown
             MarketMovement := cs.MarketMovement
             StrategyMovement := cs.StrategyMovement }] ∧
        st'.stat.AllStats = st.stat.AllStats ++
          [{ cs with FinalHoldings := lastE.Holdings
                     InitialHoldings := firstE.Holdings
                     FinalOrders := lastE.Transactions }] ∧
        st'.stat.TotalBuyOrders = st.stat.TotalBuyOrders + cs.BuyOrders ∧
        st'.stat.TotalSellOrders = st.stat.TotalSellOrders + cs.SellOrders) := by
  constructor
  · intro hm hl hfund
    have hne : cs.Events ≠ [] := by
      intro h0
      rw [h0] at hl
      simp at hl
    obtain ⟨firstE, hf⟩ : ∃ x, cs.Events.head? = some x := by
      cases hE : cs.Events with
      | nil => exact absurd hE hne
      | cons x xs => exact ⟨x, rfl⟩
    have hpt : processTuple fs calcF { stat := s } k cs = .error (.fundingErr e) := by
      simp [processTuple, hl, hf, hfund]
    simp [CalculateAllResults, hm, calcLoop, hpt]
  · intro firstE hl hf hfund hcalc
    have hpt : processTuple fs calcF st k cs = .ok
        { currCount := st.currCount + 1
          finalResults := st.finalResults ++
            [{ Exchange := k.1
               Asset := k.2.1
               Pair := k.2.2
               MaxDrawdown := cs.MaxDrawdown
               MarketMovement := cs.MarketMovement
               StrategyMovement := cs.StrategyMovement }]
          startDate := firstE.DataEvent.meta.Time
          endDate := lastE.DataEvent.meta.Time
          stat := { st.stat with
            ExchangeAssetPairStatistics :=
              some (updateTuple (st.stat.ExchangeAssetPairStatistics.getD []) k
                { cs with FinalHoldings := lastE.Holdings
                          InitialHoldings := firstE.Holdings
                          FinalOrders := lastE.Transactions })
            AllStats := st.stat.AllStats ++
              [{ cs with FinalHoldings := lastE.Holdings
                         InitialHoldings := firstE.Holdings
                         FinalOrders := lastE.Transactions }]
            TotalBuyOrders := st.stat.TotalBuyOrders + cs.BuyOrders
            TotalSellOrders := st.stat.TotalSellOrders + cs.SellOrders
            WasAnyDataMissing := st.stat.WasAnyDataMissing || cs.ShowMissingDataWarning } } := by
      simp [processTuple, hl, hf, hfund, hcalc]
    exact ⟨_, hpt, rfl, rfl, rfl, rfl⟩

/-- C5 witness: on storeA the always-failing funding source aborts
CalculateAllResults with its error, and with a healthy funding source an
always-failing calculator still lets the loop step succeed, append the
tuple summary and add the counts. -/
theorem CalculateAllResults_error_policy_witness :
    CalculateAllResults fsErr calcId storeA = (some (.fundingErr 7), storeA) ∧
    (∃ st', processTuple fsId calcFail {} (eventKey metaA) csA = .ok st' ∧
      st'.finalResults = [{ Exchange := "binance", Asset := "spot", Pair := { Base := "BTC", Quote := "USDT" } }] ∧
      st'.stat.AllStats = [csA] ∧
      st'.stat.TotalBuyOrders = 0 ∧ st'.stat.TotalSellOrders = 0) := by
  constructor
  · exact (CalculateAllResults_error_policy fsErr calcId storeA [] (eventKey metaA)
      csA {} recA 7 0 0).1 rfl rfl rfl
  · exact (CalculateAllResults_error_policy fsId calcFail storeA [] (eventKey metaA)
      csA {} recA 0 3 0).2 recA rfl rfl rfl rfl

/-- When every registered Timeline is non-empty, the aggregation loop can
never reach the empty-slice indexing panic. -/
theorem calcLoop_no_panic (fs : IFundingManager) (calcF : Calculator)
    (l : List (TupleKey × CurrencyStatistic)) :
    ∀ (st : LoopState), (∀ kv ∈ l, kv.2.Events ≠ []) →
    (calcLoop fs calcF l st).1 ≠ some .indexOutOfRange := by
  induction l with
  | nil =>
    intro st _
    simp [calcLoop]
  | cons kv restL ih =>
    intro st hne
    have hkv : kv.2.Events ≠ [] := hne kv (by simp)
    obtain ⟨lastE, hl⟩ := Option.isSome_iff_exists.mp (List.getLast?_isSome.mpr hkv)
    obtain ⟨firstE, hf⟩ : ∃ x, kv.2.Events.head? = some x := by
      cases hE : kv.2.Events with
      | nil => exact absurd hE hkv
      | cons x xs => exact ⟨x, rfl⟩
    cases hfund : fs.GetFundingForEvent (activeEvent lastE) with
    | error e =>
      have hpt : processTuple fs calcF st kv.1 kv.2 = .error (.fundingErr e) := by
        simp [processTuple, hl, hf, hfund]
      simp [calcLoop, hpt]
    | ok v =>
      have hpt : ∃ st', processTuple fs calcF st kv.1 kv.2 = .ok st' := by
        simp only [processTuple, hl, hf, hfund]
        exact ⟨_, rfl⟩
      obtain ⟨st', hst'⟩ := hpt
      rw [calcLoop, hst']
      exact ih st' (fun x hx => hne x (List.mem_cons_of_mem kv hx))

/-- C10: CalculateAllResults indexes the first and last record of every
registered Timeline without an emptiness check; when every registered
Timeline is non-empty every access is in bounds (the out-of-range outcome
is unreachable), and on a store holding a tuple with an empty Timeline
the access is out of bounds. -/
theorem CalculateAllResults_inbounds (fs : IFundingManager) (calcF : Calculator)
    (s : Statistic) (m : List (TupleKey × CurrencyStatistic))
    (hm : s.ExchangeAssetPairStatistics = some m)
    (hne : ∀ kv ∈ m, kv.2.Events ≠ []) :
    (CalculateAllResults fs calcF s).1 ≠ some .indexOutOfRange ∧
    (CalculateAllResults fsId calcId storeEmptyTimeline).1 = some .indexOutOfRange := by
  constructor
  · have hloop := calcLoop_no_panic fs calcF m { stat := s } hne
    rcases hres : calcLoop fs calcF m { stat := s } with ⟨oe, st⟩
    rw [hres] at hloop
    cases oe with
    | none =>
      simp only [CalculateAllResults, hm, Option.getD_some, hres]
      split <;> simp
    | some e =>
      simp only [CalculateAllResults, hm, Option.getD_some, hres]
      simpa using hloop
  · decide

/-- C10 witness: the in-bounds theorem applied to storeA (whose single
Timeline is non-empty). -/
theorem CalculateAllResults_inbounds_witness :
    (CalculateAllResults fsId calcId storeA).1 ≠ some .indexOutOfRange ∧
    (CalculateAllResults fsId calcId storeEmptyTimeline).1 = some .indexOutOfRange :=
  CalculateAllResults_inbounds fsId calcId storeA [(eventKey metaA, csA)] rfl (by decide)

end AggregatorProofs

section ReportDatesProofs

/-- A successful pass over a non-empty tuple list leaves startDate/endDate
holding the first and last record times of the LAST tuple processed (the
two variables are overwritten on every iteration, with no min/max
tracking). -/
theorem calcLoop_ok_dates (fs : IFundingManager) (calcF : Calculator)
    (l : List (TupleKey × CurrencyStatistic)) :
    ∀ (st st' : LoopState) (k : TupleKey) (cs : CurrencyStatistic)
      (firstE lastE : EventStore),
    calcLoop fs calcF l st = (none, st') →
    l.getLast? = some (k, cs) →
    cs.Events.head? = some firstE → cs.Events.getLast? = some lastE →
    st'.startDate = firstE.DataEvent.meta.Time ∧
    st'.endDate = lastE.DataEvent.meta.Time := by
  induction l with
  | nil =>
    intro st st' k cs firstE lastE h hlast hf hl
    simp at hlast
  | cons kv restL ih =>
    intro st st' k cs firstE lastE h hlast hf hl
    rcases hpt : processTuple fs calcF st kv.1 kv.2 with e | st1
    · rw [calcLoop, hpt] at h
      exact absurd h (by simp)
    · rw [calcLoop, hpt] at h
      cases restL with
      | nil =>
        simp [calcLoop] at h
        have hkv : kv = (k, cs) := by simpa using hlast
        subst hkv
        simp [processTuple, hf, hl] at hpt
        rcases hfund : fs.GetFundingForEvent (activeEvent lastE) with fe | fv
        · rw [hfund] at hpt
          simp at hpt
        · rw [hfund] at hpt
          simp at hpt
          subst h
          rw [← hpt]
          exact ⟨rfl, rfl⟩
      | cons b restL' =>
        refine ih st1 st' k cs firstE lastE h ?_ hf hl
        rw [← hlast]
        rfl

/-- C8 counterexample: on the two-tuple store whose first tuple spans
times 0..10 and whose last tuple spans times 2..3, CalculateAllResults
hands GenerateReport the last tuple's record times (2, 3), although the
earliest record time across all tuples is 0 and the latest is 10. -/
theorem CalculateAllResults_report_cex :
    (CalculateAllResults fsId calcId storeMulti).2.Funding = (2, 3) ∧
    (0 : Int) ∈ allRecordTimes storeMulti ∧
    (10 : Int) ∈ allRecordTimes storeMulti ∧
    (∀ t ∈ allRecordTimes storeMulti, 0 ≤ t ∧ t ≤ 10) ∧
    fsId.GenerateReport 0 10 = (0, 10) ∧
    ((2, 3) : Time × Time) ≠ ((0, 10) : Time × Time) := by decide

/-- C8 (amended): CalculateAllResults invokes GenerateReport with the
first record's time and the last record's time of the LAST tuple in
iteration order (for a single-tuple store: that Timeline's first and last
record times), not with an earliest/latest taken across all tuples. -/
theorem CalculateAllResults_report_last_tuple (fs : IFundingManager)
    (calcF : Calculator) (s : Statistic)
    (m : List (TupleKey × CurrencyStatistic)) (k : TupleKey)
    (cs : CurrencyStatistic) (firstE lastE : EventStore) (st' : LoopState)
    (hm : s.ExchangeAssetPairStatistics = some m)
    (hlast : m.getLast? = some (k, cs))
    (hloop : calcLoop fs calcF m { stat := s } = (none, st'))
    (hf : cs.Events.head? = some firstE)
    (hl : cs.Events.getLast? = some lastE) :
    (CalculateAllResults fs calcF s).2.Funding =
      fs.GenerateReport firstE.DataEvent.meta.Time lastE.DataEvent.meta.Time := by
  obtain ⟨h1, h2⟩ := calcLoop_ok_dates fs calcF m { stat := s } st' k cs firstE lastE
    hloop hlast hf hl
  simp only [CalculateAllResults, hm, Option.getD_some, hloop]
  by_cases hc : st'.currCount > 1 <;> simp [hc, h1, h2]

/-- C8 witness: the amended statement applied to the single-tuple storeA,
whose only record carries time 1: the report is built over (1, 1). -/
theorem CalculateAllResults_report_last_tuple_witness :
    (CalculateAllResults fsId calcId storeA).2.Funding = (1, 1) :=
  CalculateAllResults_report_last_tuple fsId calcId storeA
    [(eventKey metaA, csA)] (eventKey metaA) csA recA recA _ rfl rfl rfl rfl rfl

end ReportDatesProofs

end GCT
